import Mathlib

/-!
Verification of the stepwise decoding and scoring engine of the
`adversarial-nli` repository, as described in its specification.

The engine consists of:
* `LMScorer.score` / `LMScorer.log_perplexity` (src/nnli/generators/scorer.py),
  the batched perplexity scorer;
* `LanguageModel.sample` (src/nnli/lm/model.py), the generator and the
  beam-search entry point.

The per-step transition oracle (a TensorFlow `session.run` over the recurrent
cell) is modelled as an explicit function argument; the repository drives it
as an opaque collaborator.  Probabilities and losses are modelled over `ℚ`.
Batched recurrent invocations act row-wise: each row of the batch carries its
own hidden state, independent of the other rows (spec section 5).
-/

namespace NNLI

/-! ## Scorer data model (src/nnli/generators/scorer.py) -/

/-- The batched step oracle of `LMScorer.log_perplexity`: one
`session.run([lm_loss, lm_final_state], {input: x, targets: y, state})`
applied to a single batch row.  `run x y s` yields the per-row value of
`sequence_loss_by_example` — the negative log-likelihood of target token `y`
after input token `x` — together with the updated hidden state for that row.
`zero` is the per-row value of `lm_cell.zero_state`. -/
structure LMStep (σ : Type) where
  zero : σ
  run : Nat → Nat → σ → ℚ × σ

/-- `numpy` max over a list of integers (`_sizes.max()`); numpy raises on an
empty array, which `LMScorer.score` never produces (empty batches return
early), so the `[]` case is arbitrary. -/
def npMaxInt : List Int → Int
  | [] => 0
  | x :: xs => xs.foldl max x

/-- `numpy` max over naturals, used for the padded width of a batch. -/
def npMaxNat : List Nat → Nat
  | [] => 0
  | x :: xs => xs.foldl max x

/-- Python slice `xs[:stop]` for an `int` stop: a negative stop counts from
the end of the list, clamped at zero; a stop past the end takes everything. -/
def pyTake (stop : Int) (xs : List ℚ) : List ℚ :=
  if stop < 0 then xs.take ((xs.length : Int) + stop).toNat else xs.take stop.toNat

/-- One iteration of the `for j in range(_sizes.max() - 1)` loop of
`log_perplexity`, iterated: at column index `j`, feed `_sentences[:, j]` as
input and `_sentences[:, j + 1]` as target across the whole batch, recording
one loss row per iteration.  Out-of-row reads default to the padding id `0`
(numpy reads stay inside the padded rectangle for inputs produced by
`LMScorer.score`). -/
def lmSteps {σ : Type} (m : LMStep σ) (xss : List (List Nat)) :
    Nat → Nat → List σ → List (List ℚ)
  | 0, _, _ => []
  | n + 1, j, sts =>
    (List.zipWith (fun x s => (m.run (x.getD j 0) (x.getD (j + 1) 0) s).1) xss sts) ::
      lmSteps m xss n (j + 1)
        (List.zipWith (fun x s => (m.run (x.getD j 0) (x.getD (j + 1) 0) s).2) xss sts)

/-- The loss chain of one batch row in isolation: `n` consecutive oracle
steps starting at column `j` with state `s`. -/
def rowLosses {σ : Type} (m : LMStep σ) (x : List Nat) :
    Nat → Nat → σ → List ℚ
  | 0, _, _ => []
  | n + 1, j, s =>
    (m.run (x.getD j 0) (x.getD (j + 1) 0) s).1 ::
      rowLosses m x n (j + 1) (m.run (x.getD j 0) (x.getD (j + 1) 0) s).2

/-- `np.array(loss_values).transpose()` on the rectangular (steps × batch)
loss matrix; a zero-step matrix transposes to the empty array, matching
`np.array([])`. -/
def npTranspose : List (List ℚ) → List (List ℚ)
  | [] => []
  | [r] => r.map (fun v => [v])
  | r :: rs => List.zipWith List.cons r (npTranspose rs)

/-- `LMScorer.log_perplexity(session, sentences, sizes)`: drop the leading
column (`sentences[:, 1:]`, `sizes - 1`), run the batched oracle for
`_sizes.max() - 1` steps from a fresh zero state per row, transpose the loss
matrix, and sum each row's slice `[:_sizes[i] - 2]`.  The source asserts that
`sentences` and `sizes` have the same batch dimension; the model's `zipWith`s
agree with the source on such inputs. -/
def logPerplexity {σ : Type} (m : LMStep σ) (sentences : List (List Nat))
    (sizes : List Int) : List ℚ :=
  let xss := sentences.map (fun r => r.drop 1)
  let szs := sizes.map (fun s => s - 1)
  let steps := (npMaxInt szs - 1).toNat
  let lv := npTranspose (lmSteps m xss steps 0 (List.replicate sentences.length m.zero))
  let szs2 := szs.map (fun s => s - 2)
  List.zipWith (fun row s => (pyTake s row).sum) lv szs2

/-- Modelled from the spec: `util.pad_sequences` is not under src.  Spec
section 3 (BatchedSequence): a rectangular matrix of ids right-padded with
`PAD = 0` to the batch's maximum row length. -/
def padSequences (rows : List (List Nat)) : List (List Nat) :=
  let w := npMaxNat (rows.map List.length)
  rows.map (fun r => r ++ List.replicate (w - r.length) 0)

/-- `LMScorer.score(session, sentence_lst)`: an empty batch returns an empty
array immediately; otherwise the padded batch and the true lengths go to
`log_perplexity`. -/
def scoreLM {σ : Type} (m : LMStep σ) (sentenceLst : List (List Nat)) : List ℚ :=
  if sentenceLst.length < 1 then []
  else
    logPerplexity m (padSequences sentenceLst)
      (sentenceLst.map (fun l => (l.length : Int)))

/-- Number of batched oracle invocations performed by `log_perplexity`:
the trip count of its `for j in range(_sizes.max() - 1)` loop. -/
def logPerplexityCalls (sizes : List Int) : Nat :=
  (npMaxInt (sizes.map (fun s => s - 1)) - 1).toNat

/-- Number of batched oracle invocations performed by `LMScorer.score`:
zero on the empty batch (the early return precedes every `session.run`). -/
def scoreLMCalls (sentenceLst : List (List Nat)) : Nat :=
  if sentenceLst.length < 1 then 0
  else logPerplexityCalls (sentenceLst.map (fun l => (l.length : Int)))

/-- Spec section 4.3, stated independently of the implementation: the valid
span of a row of true length `L` consists of its `L - 3` interior
transitions — after dropping the leading boundary token, predict each next
token from its predecessor, starting from a fresh zero state, excluding the
final two boundary positions. -/
def rowValidSum {σ : Type} (m : LMStep σ) (row : List Nat) : ℚ :=
  (rowLosses m (row.drop 1) (row.length - 3) 0 m.zero).sum

/-- The stateless deterministic oracle stub of spec section 8: `f x y` is the
fixed negative log-likelihood the stub assigns to target `y` after input `x`;
the hidden state is ignored and never updated. -/
def statelessStub (f : Nat → Nat → ℚ) : LMStep Unit where
  zero := ()
  run := fun x y s => (f x y, s)

/-! ## Generator data model (src/nnli/lm/model.py, `LanguageModel.sample`) -/

/-- `token_to_index.get(w, 0)`: vocabulary encoding with fallback id `0`. -/
def encode (vocab : List (String × Nat)) (w : String) : Nat :=
  (vocab.lookup w).getD 0

/-- `index_to_token[i]`: vocabulary decoding (total keys over `[0, vocab_size)`;
the default is never reached for the contiguous vocabularies the repository
builds). -/
def decode (words : List (Nat × String)) (i : Nat) : String :=
  ((words.lookup i).getD "")

/-- `max(words.keys())`, the clipping bound of the emission loop. -/
def maxKey (words : List (Nat × String)) : Nat :=
  npMaxNat (words.map Prod.fst)

/-- Python `str.split()` (no separator): split on runs of whitespace,
dropping empty pieces.  Structural recursion over the character list. -/
def pySplitAux : List Char → List Char → List String
  | [], acc => if acc.isEmpty then [] else [String.mk acc.reverse]
  | c :: cs, acc =>
    if c.isWhitespace then
      if acc.isEmpty then pySplitAux cs [] else String.mk acc.reverse :: pySplitAux cs []
    else pySplitAux cs (c :: acc)

def pySplit (s : String) : List String := pySplitAux s.data []

/-- `np.cumsum` over the weights, carrying the running prefix sum. -/
def cumsumFrom (acc : ℚ) : List ℚ → List ℚ
  | [] => []
  | x :: xs => (acc + x) :: cumsumFrom (acc + x) xs

def cumsumQ (l : List ℚ) : List ℚ := cumsumFrom 0 l

/-- `np.searchsorted(t, v)` with the default left side: the first index whose
entry is at least `v`, or the length if none is. -/
def searchsortedLeft (t : List ℚ) (v : ℚ) : Nat :=
  match t with
  | [] => 0
  | x :: xs => if v ≤ x then 0 else searchsortedLeft xs v + 1

/-- `weighted_pick(weights)`: inverse-CDF sampling — prefix sums, a uniform
draw `r` in `[0, 1)` scaled by the total mass, and a left search.  The draw,
`np.random.rand(1)`, is passed explicitly. -/
def weightedPick (r : ℚ) (weights : List ℚ) : Nat :=
  searchsortedLeft (cumsumQ weights) (r * weights.sum)

/-- `np.argmax`: index of the first maximal entry (`0` on the empty array,
on which numpy would raise). -/
def npArgmaxAux : List ℚ → Nat → Nat → ℚ → Nat
  | [], _, bi, _ => bi
  | x :: xs, i, bi, bv =>
    if bv < x then npArgmaxAux xs (i + 1) i x else npArgmaxAux xs (i + 1) bi bv

def npArgmax : List ℚ → Nat
  | [] => 0
  | x :: xs => npArgmaxAux xs 1 0 x

/-- `np.argmin`: index of the first minimal entry (`0` on the empty array). -/
def npArgminAux : List ℚ → Nat → Nat → ℚ → Nat
  | [], _, bi, _ => bi
  | x :: xs, i, bi, bv =>
    if x < bv then npArgminAux xs (i + 1) i x else npArgminAux xs (i + 1) bi bv

def npArgmin : List ℚ → Nat
  | [] => 0
  | x :: xs => npArgminAux xs 1 0 x

/-- The sampling switch of the emission loop, in source order:
`sampling_type == 0` is greedy argmax, `sampling_type == 2` draws
stochastically exactly when the conditioning word is the line break, and
every other value draws stochastically. -/
def policyPick (samplingType : Nat) (r : ℚ) (word : String) (p : List ℚ) : Nat :=
  if samplingType = 0 then npArgmax p
  else if samplingType = 2 then
    (if word = "\n" then weightedPick r p else npArgmax p)
  else weightedPick r p

/-- The `for n in range(num)` emission loop of `LanguageModel.sample`
(`pick == 1` branch): feed the current word, pick a sample under the policy,
clip it into the key range (`np.clip(sample, 0, max(words.keys()))`; the
lower bound is vacuous over `ℕ`), decode it, emit it, and continue with the
emitted token as the next conditioning word.  `rands n` is the uniform draw
available to `weighted_pick` at step `n`. -/
def emitLoop {σ : Type} (step : Nat → σ → List ℚ × σ) (words : List (Nat × String))
    (vocab : List (String × Nat)) (samplingType : Nat) (rands : Nat → ℚ) :
    Nat → Nat → String → σ → List String
  | 0, _, _, _ => []
  | k + 1, n, word, s =>
    let pr := step (encode vocab word) s
    let prediction := decode words (min (policyPick samplingType (rands n) word pr.1) (maxKey words))
    prediction :: emitLoop step words vocab samplingType rands k (n + 1) prediction pr.2

/-- The seed fallback shared by the sampling branch and `beam_search_pick`:
`if not len(prime) or prime == ' '`, replace the seed with the vocabulary
token chosen by the random source. -/
def replaceSeed (randChoice prime : String) : String :=
  if prime = "" ∨ prime = " " then randChoice else prime

/-- The `pick == 1` branch after seed replacement: prime the oracle over
every seed token but the last (probabilities discarded), keep the seed as the
prefix of the result, and emit from the last seed token.  `prime.split()[-1]`
raises `IndexError` when the seed has no tokens, modelled as `none`. -/
def genBranch {σ : Type} (step : Nat → σ → List ℚ × σ) (zero : σ)
    (words : List (Nat × String)) (vocab : List (String × Nat))
    (samplingType : Nat) (rands : Nat → ℚ) (num : Int) (prime1 : String) :
    Option (List String) :=
  let ws := pySplit prime1
  let s := ws.dropLast.foldl (fun st w => (step (encode vocab w) st).2) zero
  match ws.getLast? with
  | none => none
  | some word =>
    some (ws ++ emitLoop step words vocab samplingType rands num.toNat 0 word s)

/-- `beam_search_pick(prime, width)`: replace an empty seed, encode the seed
tokens, run the (external, `nnli/lm/beam.py` is not under src) beam search
`bs width num labels` standing for `BeamSearch(...).search(None, None,
k=width, maxsample=num)`, and return `samples[np.argmin(scores)]`; an
out-of-range pick (empty search result) is an error, modelled as `none`. -/
def beamSearchPick (bs : Nat → Int → List Nat → List (List Nat) × List ℚ)
    (width : Nat) (num : Int) (vocab : List (String × Nat))
    (randChoice prime : String) : Option (List Nat) :=
  let prime1 := replaceSeed randChoice prime
  let labels := (pySplit prime1).map (encode vocab)
  let sr := bs width num labels
  sr.1.get? (npArgmin sr.2)

/-- `LanguageModel.sample(session, words, vocab, num, prime, sampling_type,
pick, width)`, with the oracle, the random sources, and the external beam
search passed explicitly.  The result is read as its sequence of tokens:
the `pick == 1` branch returns the seed followed by the emitted tokens, the
`pick == 2` branch decodes the beam-search pick, and every other `pick`
returns the empty string untouched. -/
def sample {σ : Type} (step : Nat → σ → List ℚ × σ) (zero : σ)
    (words : List (Nat × String)) (vocab : List (String × Nat))
    (num : Int) (prime : String) (samplingType pick width : Nat)
    (randChoice : String) (rands : Nat → ℚ)
    (bs : Nat → Int → List Nat → List (List Nat) × List ℚ) :
    Option (List String) :=
  if pick = 1 then
    genBranch step zero words vocab samplingType rands num (replaceSeed randChoice prime)
  else if pick = 2 then
    (beamSearchPick bs width num vocab randChoice prime).map
      (fun labels => labels.map (decode words))
  else some []

/-! ## Concrete instances for witnesses and counterexamples -/

/-- The vocabulary of spec section 8. -/
def specVocab : List (String × Nat) :=
  [("<PAD>", 0), ("<BOS>", 1), ("<EOS>", 2), ("<UNK>", 3), ("cat", 4), ("sat", 5)]

/-- The inverse mapping of `specVocab`. -/
def specWords : List (Nat × String) :=
  [(0, "<PAD>"), (1, "<BOS>"), (2, "<EOS>"), (3, "<UNK>"), (4, "cat"), (5, "sat")]

/-- A concrete stateless scorer oracle assigning distinct rational losses. -/
def tableStub : LMStep Unit := statelessStub (fun x y => (x * 10 + y : ℚ))

/-- A concrete generator oracle: a uniform-looking fixed distribution over
the six-token vocabulary, stateless. -/
def constStep : Nat → Unit → List ℚ × Unit :=
  fun _ s => ([1/6, 1/6, 1/6, 1/6, 1/6, 1/6], s)

/-- A concrete external beam search returning a fixed single hypothesis. -/
def constBeam : Nat → Int → List Nat → List (List Nat) × List ℚ :=
  fun _ _ labels => ([labels], [0])

/-- A degenerate random source for witnesses. -/
def zeroRands : Nat → ℚ := fun _ => 0

/-! ## Helper lemmas -/

theorem emitLoop_length {σ : Type} (step : Nat → σ → List ℚ × σ)
    (words : List (Nat × String)) (vocab : List (String × Nat)) (t : Nat)
    (rands : Nat → ℚ) :
    ∀ (k n : Nat) (w : String) (s : σ),
      (emitLoop step words vocab t rands k n w s).length = k := by
  intro k
  induction k with
  | zero => intro n w s; rfl
  | succ k ih => intro n w s; simp [emitLoop, ih]

theorem foldl_max_le_init (l : List Int) : ∀ a : Int, a ≤ l.foldl max a := by
  induction l with
  | nil => intro a; exact le_refl a
  | cons x xs ih => intro a; exact le_trans (le_max_left a x) (ih (max a x))

theorem foldl_max_le_mem (l : List Int) : ∀ (a x : Int), x ∈ l → x ≤ l.foldl max a := by
  induction l with
  | nil => intro a x hx; cases hx
  | cons y ys ih =>
    intro a x hx
    cases hx with
    | head => exact le_trans (le_max_right a y) (foldl_max_le_init ys (max a y))
    | tail _ h => exact ih (max a y) x h

theorem le_npMaxInt {x : Int} {l : List Int} (h : x ∈ l) : x ≤ npMaxInt l := by
  cases l with
  | nil => cases h
  | cons y ys =>
    cases h with
    | head => exact foldl_max_le_init ys x
    | tail _ h => exact foldl_max_le_mem ys y x h

theorem npMaxInt_pair (x y : Int) : npMaxInt [x, y] = max x y := rfl

theorem zipWith_map_same {α β γ δ : Type _} (f : β → γ → δ) (g : α → β) (h : α → γ)
    (l : List α) :
    List.zipWith f (l.map g) (l.map h) = l.map (fun x => f (g x) (h x)) := by
  induction l with
  | nil => rfl
  | cons x xs ih => simp [ih]

theorem zipWith_replicate_len {α β γ : Type _} (f : α → β → γ) (c : β) (l : List α) :
    List.zipWith f l (List.replicate l.length c) = l.map (fun x => f x c) := by
  induction l with
  | nil => rfl
  | cons x xs ih => simp [List.replicate_succ, ih]

theorem zipWith_cons_of_zipWith {α β γ : Type _} (f : α → β → γ) (g : α → β → β)
    (h : α → β → List γ) (l : List α) : ∀ l' : List β,
    List.zipWith List.cons (List.zipWith f l l')
        (List.zipWith h l (List.zipWith g l l')) =
      List.zipWith (fun x y => f x y :: h x (g x y)) l l' := by
  induction l with
  | nil => intro l'; rfl
  | cons x xs ih =>
    intro l'
    cases l' with
    | nil => rfl
    | cons y ys => simp [ih]

theorem npTranspose_cons_of_ne (r : List ℚ) (rs : List (List ℚ)) (h : rs ≠ []) :
    npTranspose (r :: rs) = List.zipWith List.cons r (npTranspose rs) := by
  cases rs with
  | nil => cases h rfl
  | cons a l => rfl

theorem lmSteps_succ_ne_nil {σ : Type} (m : LMStep σ) (xss : List (List Nat))
    (n j : Nat) (sts : List σ) : lmSteps m xss (n + 1) j sts ≠ [] := by
  simp [lmSteps]

/-- The rectangular loss matrix of the batched loop, transposed, is the list
of each row's independent loss chain (one per batch row). -/
theorem npTranspose_lmSteps {σ : Type} (m : LMStep σ) (xss : List (List Nat)) :
    ∀ n : Nat, 1 ≤ n → ∀ (j : Nat) (sts : List σ),
      npTranspose (lmSteps m xss n j sts) =
        List.zipWith (fun x s => rowLosses m x n j s) xss sts := by
  intro n
  induction n with
  | zero => intro h; omega
  | succ k ih =>
    intro _ j sts
    cases k with
    | zero =>
      simp only [lmSteps, npTranspose, List.map_zipWith, rowLosses]
    | succ k' =>
      have hcons : lmSteps m xss (k' + 1 + 1) j sts =
          (List.zipWith (fun x s => (m.run (x.getD j 0) (x.getD (j + 1) 0) s).1) xss sts) ::
            lmSteps m xss (k' + 1) (j + 1)
              (List.zipWith (fun x s => (m.run (x.getD j 0) (x.getD (j + 1) 0) s).2) xss sts) := rfl
      rw [hcons, npTranspose_cons_of_ne _ _ (lmSteps_succ_ne_nil m xss k' (j + 1) _),
        ih (by omega) (j + 1) _,
        zipWith_cons_of_zipWith (fun x s => (m.run (x.getD j 0) (x.getD (j + 1) 0) s).1)
          (fun x s => (m.run (x.getD j 0) (x.getD (j + 1) 0) s).2)
          (fun x s => rowLosses m x (k' + 1) (j + 1) s) xss sts]
      simp only [rowLosses]

theorem rowLosses_take {σ : Type} (m : LMStep σ) (x : List Nat) :
    ∀ (n k j : Nat) (s : σ),
      (rowLosses m x n j s).take k = rowLosses m x (min k n) j s := by
  intro n
  induction n with
  | zero => intro k j s; simp [rowLosses]
  | succ n ih =>
    intro k j s
    cases k with
    | zero => simp [rowLosses]
    | succ k => simp [rowLosses, ih, Nat.succ_min_succ]

/-! ## Claim theorems -/

/-- Claim C1: for the section-8 vocabulary and a stateless deterministic
oracle stub assigning loss `f x y` to target `y` after input `x`, the scorer
applied to the single sequence `[1, 4, 5, 2]` (BOS, cat, sat, EOS) returns
exactly the negative log-likelihood of predicting token `5` (sat) from token
`4` (cat), and nothing else: the leading shift, the per-row window and the
final two-position trim leave exactly the one interior transition. -/
theorem c1_single_interior_transition (f : Nat → Nat → ℚ) :
    logPerplexity (statelessStub f) [[1, 4, 5, 2]] [4] = [f 4 5] := by
  simp [logPerplexity, lmSteps, npTranspose, npMaxInt, pyTake, statelessStub]

/-- Claim C2: the engine encodes seed tokens with `vocab.get(w, 0)`, so a
token absent from the vocabulary resolves to id `0` — the reserved PAD id —
and not to the reserved UNK id `3` that the vocabulary designates for
unknown words.  Encoding never fails (the fallback is total). -/
theorem c2_unknown_encodes_to_pad :
    specVocab.lookup "zzz" = none ∧ specVocab.lookup "<UNK>" = some 3 ∧
      encode specVocab "zzz" = 0 ∧ encode specVocab "zzz" ≠ 3 := by
  decide

/-- Claim C3, counterexample: with seed `"cat"` and `num = 0` the sampling
branch returns the seed token itself — one token, not the empty result the
claim demands for `num == 0`. -/
theorem c3_counter :
    sample constStep () specWords specVocab 0 "cat" 0 1 4 "tok" zeroRands constBeam =
      some ["cat"] ∧ (["cat"] : List String).length ≠ 0 :=
  ⟨rfl, by decide⟩

/-- Claim C3, amended: the sampling branch returns the (possibly replaced)
seed's tokens followed by exactly `num` generated tokens, so the result has
`seed tokens + num` tokens; it is never empty for a seed with at least one
token. -/
theorem c3_seed_prefix_plus_num {σ : Type} (step : Nat → σ → List ℚ × σ) (zero : σ)
    (words : List (Nat × String)) (vocab : List (String × Nat)) (num : Int)
    (prime : String) (samplingType width : Nat) (randChoice : String)
    (rands : Nat → ℚ) (bs : Nat → Int → List Nat → List (List Nat) × List ℚ)
    (hw : pySplit (replaceSeed randChoice prime) ≠ []) (hn : 0 ≤ num) :
    ∃ emitted : List String,
      sample step zero words vocab num prime samplingType 1 width randChoice rands bs =
        some (pySplit (replaceSeed randChoice prime) ++ emitted) ∧
        (emitted.length : Int) = num := by
  cases hlast : (pySplit (replaceSeed randChoice prime)).getLast? with
  | none => exact absurd (List.getLast?_eq_none_iff.mp hlast) hw
  | some w =>
    refine ⟨emitLoop step words vocab samplingType rands num.toNat 0 w
        ((pySplit (replaceSeed randChoice prime)).dropLast.foldl
          (fun st u => (step (encode vocab u) st).2) zero), ?_, ?_⟩
    · simp [sample, genBranch, hlast]
    · rw [emitLoop_length]; exact Int.toNat_of_nonneg hn

/-- Claim C3, witness at seed `"cat"`, `num = 2`. -/
theorem c3_witness :
    (pySplit (replaceSeed "tok" "cat") ≠ [] ∧ (0 : Int) ≤ 2) ∧
    ∃ emitted : List String,
      sample constStep () specWords specVocab 2 "cat" 0 1 4 "tok" zeroRands constBeam =
        some (pySplit (replaceSeed "tok" "cat") ++ emitted) ∧
        (emitted.length : Int) = 2 :=
  ⟨⟨by decide, by decide⟩,
    c3_seed_prefix_plus_num constStep () specWords specVocab 2 "cat" 0 4 "tok"
      zeroRands constBeam (by decide) (by decide)⟩

/-- Claim C4, counterexample: a non-empty batch whose single row has length
`2` produces an empty result — zero scalars instead of one per input row
(the step loop `range(_sizes.max() - 1)` never runs, so the transposed loss
matrix has no rows). -/
theorem c4_counter :
    logPerplexity tableStub [[1, 2]] [2] = [] ∧
      ([[1, 2]] : List (List Nat)).length = 1 ∧
      (logPerplexity tableStub [[1, 2]] [2]).length ≠ 1 :=
  ⟨rfl, rfl, by decide⟩

/-- Claim C4, amended: for every non-empty batch in which every row has true
length at least `3`, the scorer returns exactly `batch_size` scalars, one per
input row, each the sum of the per-step negative log-likelihoods over that
row's valid (non-boundary, non-padding) span — its `length - 3` interior
transitions, driven from a fresh per-row zero state. -/
theorem c4_batch_rowwise_sums {σ : Type} (m : LMStep σ) (rows : List (List Nat))
    (h1 : rows ≠ []) (h2 : ∀ r ∈ rows, 3 ≤ r.length) :
    logPerplexity m rows (rows.map (fun r => (r.length : Int))) =
      rows.map (rowValidSum m) ∧
    (logPerplexity m rows (rows.map (fun r => (r.length : Int)))).length =
      rows.length := by
  have hM : 2 ≤ npMaxInt ((rows.map (fun r => (r.length : Int))).map (fun s => s - 1)) := by
    obtain ⟨r0, hr0⟩ := List.exists_mem_of_ne_nil rows h1
    have h3 := h2 r0 hr0
    have hmem : ((r0.length : Int) - 1) ∈
        (rows.map (fun r => (r.length : Int))).map (fun s => s - 1) :=
      List.mem_map_of_mem _ (List.mem_map_of_mem _ hr0)
    have hle := le_npMaxInt hmem
    omega
  obtain ⟨k, hk⟩ : ∃ k,
      (npMaxInt ((rows.map (fun r => (r.length : Int))).map (fun s => s - 1)) - 1).toNat
        = k + 1 :=
    ⟨(npMaxInt ((rows.map (fun r => (r.length : Int))).map (fun s => s - 1)) - 1).toNat - 1,
      by omega⟩
  have hmain : logPerplexity m rows (rows.map (fun r => (r.length : Int))) =
      rows.map (rowValidSum m) := by
    simp only [logPerplexity, hk]
    rw [npTranspose_lmSteps m _ (k + 1) (by omega) 0 _,
        show rows.length = (rows.map (fun r => r.drop 1)).length from
          (List.length_map _ _).symm,
        zipWith_replicate_len]
    simp only [List.map_map]
    rw [zipWith_map_same]
    refine List.map_congr_left ?_
    intro r hr
    have h3 := h2 r hr
    have hle : ((r.length : Int) - 1) ≤
        npMaxInt ((rows.map (fun r => (r.length : Int))).map (fun s => s - 1)) :=
      le_npMaxInt (List.mem_map_of_mem _ (List.mem_map_of_mem _ hr))
    simp only [Function.comp]
    rw [pyTake, if_neg (by omega)]
    have htn : (((r.length : Int) - 1 - 2)).toNat = r.length - 3 := by omega
    rw [htn, rowLosses_take, min_eq_left (by omega)]
    rfl
  exact ⟨hmain, by rw [hmain, List.length_map]⟩

/-- Claim C4, witness: a two-row batch with row lengths `4` and `3`. -/
theorem c4_witness :
    (([[1, 4, 5, 2], [1, 4, 2]] : List (List Nat)) ≠ [] ∧
      ∀ r ∈ ([[1, 4, 5, 2], [1, 4, 2]] : List (List Nat)), 3 ≤ r.length) ∧
    (logPerplexity tableStub [[1, 4, 5, 2], [1, 4, 2]]
        (([[1, 4, 5, 2], [1, 4, 2]] : List (List Nat)).map (fun r => (r.length : Int))) =
      ([[1, 4, 5, 2], [1, 4, 2]] : List (List Nat)).map (rowValidSum tableStub) ∧
    (logPerplexity tableStub [[1, 4, 5, 2], [1, 4, 2]]
        (([[1, 4, 5, 2], [1, 4, 2]] : List (List Nat)).map (fun r => (r.length : Int)))).length =
      ([[1, 4, 5, 2], [1, 4, 2]] : List (List Nat)).length) :=
  ⟨⟨by decide, by decide⟩,
    c4_batch_rowwise_sums tableStub [[1, 4, 5, 2], [1, 4, 2]] (by decide) (by decide)⟩

/-- Claim C5, counterexample: a negative `num` is not rejected: the sampling
branch returns the seed normally instead of failing with an
`InvalidParameter` condition. -/
theorem c5_counter :
    sample constStep () specWords specVocab (-5) "cat" 0 1 4 "tok" zeroRands constBeam =
      some ["cat"] := rfl

/-- Claim C5, amended: a non-positive `num` is accepted silently — the
emission loop body never runs (`range(num)` is empty) and the sampling branch
returns the primed seed unchanged; no parameter validation exists. -/
theorem c5_nonpositive_num_silent {σ : Type} (step : Nat → σ → List ℚ × σ) (zero : σ)
    (words : List (Nat × String)) (vocab : List (String × Nat)) (num : Int)
    (prime : String) (samplingType width : Nat) (randChoice : String)
    (rands : Nat → ℚ) (bs : Nat → Int → List Nat → List (List Nat) × List ℚ)
    (hn : num ≤ 0) (hw : pySplit (replaceSeed randChoice prime) ≠ []) :
    sample step zero words vocab num prime samplingType 1 width randChoice rands bs =
      some (pySplit (replaceSeed randChoice prime)) := by
  cases hlast : (pySplit (replaceSeed randChoice prime)).getLast? with
  | none => exact absurd (List.getLast?_eq_none_iff.mp hlast) hw
  | some w =>
    have h0 : num.toNat = 0 := Int.toNat_of_nonpos hn
    simp [sample, genBranch, hlast, h0, emitLoop]

/-- Claim C5, witness at `num = -1`, seed `"cat"`. -/
theorem c5_witness :
    ((-1 : Int) ≤ 0 ∧ pySplit (replaceSeed "tok" "cat") ≠ []) ∧
    sample constStep () specWords specVocab (-1) "cat" 0 1 4 "tok" zeroRands constBeam =
      some (pySplit (replaceSeed "tok" "cat")) :=
  ⟨⟨by decide, by decide⟩,
    c5_nonpositive_num_silent constStep () specWords specVocab (-1) "cat" 0 4 "tok"
      zeroRands constBeam (by decide) (by decide)⟩

/-- Claim C6: the scorer commutes with swapping a two-row batch: scoring
`[A, B]` and un-permuting the two scalars (reversal) equals scoring `[B, A]`
directly — each row's scalar depends only on that row's tokens and length
(and the permutation-invariant batch maximum that fixes the loop length). -/
theorem c6_batch_order_invariance {σ : Type} (m : LMStep σ) (a b : List Nat)
    (sa sb : Int) :
    logPerplexity m [b, a] [sb, sa] = (logPerplexity m [a, b] [sa, sb]).reverse := by
  simp only [logPerplexity, List.map_cons, List.map_nil, List.length_cons,
    List.length_nil, npMaxInt_pair]
  rw [max_comm (sb - 1) (sa - 1)]
  generalize (max (sa - 1) (sb - 1) - 1).toNat = N
  cases N with
  | zero => simp [lmSteps, npTranspose]
  | succ k =>
    rw [npTranspose_lmSteps m _ (k + 1) (by omega) 0 _,
        npTranspose_lmSteps m _ (k + 1) (by omega) 0 _]
    simp [List.replicate_succ]

/-- Claim C7: under the hybrid sampling policy (`sampling_type == 2`) each
emission step draws stochastically — that is, behaves as the stochastic
policy, an inverse-CDF draw — exactly when the conditioning word is the
line-break token, and otherwise behaves as the greedy argmax policy; and the
conditioning word of the next step is the token just emitted. -/
theorem c7_hybrid_policy_switch {σ : Type} (step : Nat → σ → List ℚ × σ)
    (words : List (Nat × String)) (vocab : List (String × Nat))
    (rands : Nat → ℚ) (k n : Nat) (w : String) (s : σ) :
    (∀ (r : ℚ) (p : List ℚ),
        policyPick 2 r w p =
          if w = "\n" then policyPick 1 r w p else policyPick 0 r w p) ∧
    emitLoop step words vocab 2 rands (k + 1) n w s =
      decode words (min (policyPick 2 (rands n) w (step (encode vocab w) s).1) (maxKey words)) ::
        emitLoop step words vocab 2 rands k (n + 1)
          (decode words (min (policyPick 2 (rands n) w (step (encode vocab w) s).1) (maxKey words)))
          (step (encode vocab w) s).2 := by
  constructor
  · intro r p
    by_cases h : w = "\n" <;> simp [policyPick, h]
  · simp [emitLoop]

/-- Claim C8, counterexample: the two-space seed is whitespace-only but is
not replaced (the check only covers the empty string and the single space),
and the sampling branch then fails (`prime.split()[-1]` raises `IndexError`)
rather than priming from a random vocabulary token. -/
theorem c8_counter :
    ("  ".data.all Char.isWhitespace = true) ∧ ("  " : String) ≠ "" ∧
      replaceSeed "tok" "  " = "  " ∧
      sample constStep () specWords specVocab 5 "  " 0 1 4 "tok" zeroRands constBeam = none :=
  ⟨by decide, by decide, rfl, rfl⟩

/-- Claim C8, amended: a seed that is the empty string or exactly the single
space `" "` is replaced, before priming begins, by the token supplied by the
random source, in both the sampling branch and the beam-search seeding; other
whitespace-only seeds are passed through unreplaced. -/
theorem c8_seed_replacement {σ : Type} (step : Nat → σ → List ℚ × σ) (zero : σ)
    (words : List (Nat × String)) (vocab : List (String × Nat)) (num : Int)
    (prime : String) (samplingType width : Nat) (randChoice : String)
    (rands : Nat → ℚ) (bs : Nat → Int → List Nat → List (List Nat) × List ℚ)
    (hp : prime = "" ∨ prime = " ") (h1 : randChoice ≠ "") (h2 : randChoice ≠ " ") :
    sample step zero words vocab num prime samplingType 1 width randChoice rands bs =
      sample step zero words vocab num randChoice samplingType 1 width randChoice rands bs ∧
    beamSearchPick bs width num vocab randChoice prime =
      beamSearchPick bs width num vocab randChoice randChoice := by
  have hr : replaceSeed randChoice prime = randChoice := by
    unfold replaceSeed; exact if_pos hp
  have hrr : replaceSeed randChoice randChoice = randChoice := by
    unfold replaceSeed; exact if_neg (not_or.mpr ⟨h1, h2⟩)
  constructor
  · simp [sample, hr, hrr]
  · simp [beamSearchPick, hr, hrr]

/-- Claim C8, witness at the empty seed with random token `"cat"`. -/
theorem c8_witness :
    (("" : String) = "" ∨ ("" : String) = " ") ∧ ("cat" : String) ≠ "" ∧
      ("cat" : String) ≠ " " ∧
      (sample constStep () specWords specVocab 3 "" 0 1 4 "cat" zeroRands constBeam =
          sample constStep () specWords specVocab 3 "cat" 0 1 4 "cat" zeroRands constBeam ∧
        beamSearchPick constBeam 4 3 specVocab "cat" "" =
          beamSearchPick constBeam 4 3 specVocab "cat" "cat") :=
  ⟨Or.inl rfl, by decide, by decide,
    c8_seed_replacement constStep () specWords specVocab 3 "" 0 4 "cat" zeroRands
      constBeam (Or.inl rfl) (by decide) (by decide)⟩

/-- Claim C9: a batch of zero sequences returns an empty result immediately,
with zero oracle invocations. -/
theorem c9_empty_batch {σ : Type} (m : LMStep σ) :
    scoreLM m ([] : List (List Nat)) = [] ∧ scoreLMCalls ([] : List (List Nat)) = 0 :=
  ⟨rfl, rfl⟩

/-- Claim C10: a `pick` value selecting neither the sampling branch
(`pick == 1`) nor the beam-search branch (`pick == 2`) silently returns the
empty string, for every oracle, seed, and beam search — so neither is
consulted. -/
theorem c10_other_pick_empty {σ : Type} (step : Nat → σ → List ℚ × σ) (zero : σ)
    (words : List (Nat × String)) (vocab : List (String × Nat)) (num : Int)
    (prime : String) (samplingType pick width : Nat) (randChoice : String)
    (rands : Nat → ℚ) (bs : Nat → Int → List Nat → List (List Nat) × List ℚ)
    (h1 : pick ≠ 1) (h2 : pick ≠ 2) :
    sample step zero words vocab num prime samplingType pick width randChoice rands bs =
      some [] := by
  simp [sample, h1, h2]

/-- Claim C10, witness at the default `pick = 0`. -/
theorem c10_witness :
    ((0 : Nat) ≠ 1 ∧ (0 : Nat) ≠ 2) ∧
    sample constStep () specWords specVocab 7 "cat" 1 0 4 "tok" zeroRands constBeam =
      some [] :=
  ⟨⟨by decide, by decide⟩,
    c10_other_pick_empty constStep () specWords specVocab 7 "cat" 1 0 4 "tok"
      zeroRands constBeam (by decide) (by decide)⟩

end NNLI
